import Mathlib

/-!
Verification development for a technical-indicator screener.

The code under verification consists of:
* an indicator library (`calculateRSI`, `calculateSMA`, `calculateEMA`,
  `calculateMACD`, `calculateBollingerBands`, crossover detectors,
  `getLatestIndicators`),
* a filter/score module (`matchesFilters`, `calculateScore`),
* a batched retrieval helper (`fetchKlinesBatch`) and the scan loop
  (`scanSymbols`).

Prices are modelled as exact rationals; the single square root used by the
Bollinger-band computation is modelled with `Real.sqrt` (the source computes
a real square root).  Functions that throw on short input are modelled with
`Except String`; the throwing guard and the pure computation are separated
into a wrapper and a `...Core`/`...List` function so that properties of the
values can be stated directly.
-/

/-! ## RSI (indicators.js, calculateRSI) -/

/-- Per-step price changes: `changes[i] = closes[i+1] - closes[i]`. -/
def rsiChanges (closes : List ℚ) : List ℚ :=
  (closes.zip closes.tail).map (fun p => p.2 - p.1)

/-- Gains: positive changes, else 0. -/
def rsiGains (closes : List ℚ) : List ℚ :=
  (rsiChanges closes).map (fun c => if c > 0 then c else 0)

/-- Losses: absolute values of negative changes, else 0. -/
def rsiLosses (closes : List ℚ) : List ℚ :=
  (rsiChanges closes).map (fun c => if c < 0 then |c| else 0)

/-- The RSI formula applied to one pair of smoothed averages:
100 when the average loss is zero, else `100 - 100/(1 + avgGain/avgLoss)`. -/
def rsiOf (avgGain avgLoss : ℚ) : ℚ :=
  if avgLoss = 0 then 100 else 100 - 100 / (1 + avgGain / avgLoss)

/-- One step of Wilder's smoothing applied to the pair (avgGain, avgLoss). -/
def rsiStep (period : ℕ) (avg : ℚ × ℚ) (gl : ℚ × ℚ) : ℚ × ℚ :=
  ((avg.1 * ((period : ℚ) - 1) + gl.1) / (period : ℚ),
   (avg.2 * ((period : ℚ) - 1) + gl.2) / (period : ℚ))

/-- The list of RSI values: the first comes from the seed averages (simple
means of the first `period` gains/losses), each later one from one Wilder
smoothing step consuming one further gain/loss pair. -/
def rsiCore (closes : List ℚ) (period : ℕ) : List ℚ :=
  let gains := rsiGains closes
  let losses := rsiLosses closes
  let avgGain := (gains.take period).sum / (period : ℚ)
  let avgLoss := (losses.take period).sum / (period : ℚ)
  (((gains.zip losses).drop period).scanl (rsiStep period) (avgGain, avgLoss)).map
    (fun a => rsiOf a.1 a.2)

/-- calculateRSI: throws when fewer than `period + 1` closes are given. -/
def calculateRSI (closes : List ℚ) (period : ℕ) : Except String (List ℚ) :=
  if closes.length < period + 1 then
    Except.error "Not enough data for RSI calculation."
  else
    Except.ok (rsiCore closes period)

/-! ## SMA / EMA (indicators.js, calculateSMA / calculateEMA) -/

/-- The list of simple moving averages of each trailing window of size
`period` (the source indexes windows by their right end; here by their left
end, which ranges over `0 .. length - period`). -/
def smaList (prices : List ℚ) (period : ℕ) : List ℚ :=
  (List.range (prices.length - period + 1)).map
    (fun i => (((prices.drop i).take period).sum) / (period : ℚ))

/-- calculateSMA: throws when fewer than `period` prices are given. -/
def calculateSMA (prices : List ℚ) (period : ℕ) : Except String (List ℚ) :=
  if prices.length < period then
    Except.error "Not enough data for SMA calculation."
  else
    Except.ok (smaList prices period)

/-- One EMA update: `(price - prevEMA) * multiplier + prevEMA`. -/
def emaStep (multiplier prevEMA price : ℚ) : ℚ :=
  (price - prevEMA) * multiplier + prevEMA

/-- The list of exponential moving averages: seeded with the simple mean of
the first `period` prices, then one `emaStep` per remaining price, with
multiplier `2 / (period + 1)`. -/
def emaList (prices : List ℚ) (period : ℕ) : List ℚ :=
  let multiplier : ℚ := 2 / ((period : ℚ) + 1)
  let firstSMA : ℚ := ((prices.take period).sum) / (period : ℚ)
  (prices.drop period).scanl (emaStep multiplier) firstSMA

/-- calculateEMA: throws when fewer than `period` prices are given. -/
def calculateEMA (prices : List ℚ) (period : ℕ) : Except String (List ℚ) :=
  if prices.length < period then
    Except.error "Not enough data for EMA calculation."
  else
    Except.ok (emaList prices period)

/-! ## MACD (indicators.js, calculateMACD) -/

structure MACDData where
  macdLine : List ℚ
  signalLine : List ℚ
  histogram : List ℚ
deriving Repr

/-- calculateMACD: guard `length < slow + signal`, then fast and slow EMAs,
the macd line aligned by `offset = slow - fast`, the signal line (EMA of the
macd line) and the histogram. -/
def calculateMACD (closes : List ℚ) (fast slow signal : ℕ) :
    Except String MACDData :=
  if closes.length < slow + signal then
    Except.error "Not enough data for MACD calculation."
  else do
    let fastEMA ← calculateEMA closes fast
    let slowEMA ← calculateEMA closes slow
    let offset := slow - fast
    let macdLine := (List.range slowEMA.length).map
      (fun i => fastEMA.getD (i + offset) 0 - slowEMA.getD i 0)
    let signalLine ← calculateEMA macdLine signal
    let signalOffset := macdLine.length - signalLine.length
    let histogram := (List.range signalLine.length).map
      (fun i => macdLine.getD (i + signalOffset) 0 - signalLine.getD i 0)
    Except.ok ⟨macdLine, signalLine, histogram⟩

/-! ## Bollinger Bands (indicators.js, calculateBollingerBands) -/

/-- Population variance of the i-th window of size `period`: squared
deviations from the window's SMA, summed and divided by `period` (not
`period - 1`). -/
def bollingerWindowVariance (prices : List ℚ) (period i : ℕ) : ℚ :=
  let slice := (prices.drop i).take period
  let mean := (smaList prices period).getD i 0
  ((slice.map (fun p => (p - mean) ^ 2)).sum) / (period : ℚ)

structure BollingerBands where
  upper : List ℝ
  middle : List ℚ
  lower : List ℝ

/-- Middle band is the SMA list; upper/lower are the middle shifted by
`stdDev` times the population standard deviation of each window. -/
noncomputable def bollingerCore (prices : List ℚ) (period : ℕ) (stdDev : ℚ) :
    BollingerBands :=
  let middle := smaList prices period
  { upper := (List.range middle.length).map
      (fun i => (middle.getD i 0 : ℝ) +
        (stdDev : ℝ) * Real.sqrt (bollingerWindowVariance prices period i))
    middle := middle
    lower := (List.range middle.length).map
      (fun i => (middle.getD i 0 : ℝ) -
        (stdDev : ℝ) * Real.sqrt (bollingerWindowVariance prices period i)) }

/-- calculateBollingerBands: throws when fewer than `period` prices are
given. -/
noncomputable def calculateBollingerBands (prices : List ℚ) (period : ℕ)
    (stdDev : ℚ) : Except String BollingerBands :=
  if prices.length < period then
    Except.error "Not enough data for Bollinger Bands calculation."
  else
    Except.ok (bollingerCore prices period stdDev)

/-! ## Crossover detectors (indicators.js) -/

/-- Golden cross: fast MA was at or below the slow MA, now strictly above. -/
def isGoldenCross (maFast maSlow : List ℚ) : Bool :=
  if maFast.length < 2 || maSlow.length < 2 then false
  else
    decide (maFast.getD (maFast.length - 2) 0 ≤ maSlow.getD (maSlow.length - 2) 0) &&
    decide (maSlow.getD (maSlow.length - 1) 0 < maFast.getD (maFast.length - 1) 0)

/-- Death cross: fast MA was at or above the slow MA, now strictly below. -/
def isDeathCross (maFast maSlow : List ℚ) : Bool :=
  if maFast.length < 2 || maSlow.length < 2 then false
  else
    decide (maSlow.getD (maSlow.length - 2) 0 ≤ maFast.getD (maFast.length - 2) 0) &&
    decide (maFast.getD (maFast.length - 1) 0 < maSlow.getD (maSlow.length - 1) 0)

/-- MACD bullish crossover: histogram was negative, now positive. -/
def isMACDBullishCross (histogram : List ℚ) : Bool :=
  if histogram.length < 2 then false
  else
    decide (histogram.getD (histogram.length - 2) 0 < 0) &&
    decide (0 < histogram.getD (histogram.length - 1) 0)

/-- MACD bearish crossover: histogram was positive, now negative. -/
def isMACDBearishCross (histogram : List ℚ) : Bool :=
  if histogram.length < 2 then false
  else
    decide (0 < histogram.getD (histogram.length - 2) 0) &&
    decide (histogram.getD (histogram.length - 1) 0 < 0)

/-! ## Snapshot assembly (indicators.js, getLatestIndicators) -/

structure MACDLatest where
  value : ℚ
  signal : ℚ
  histogram : ℚ

structure BollingerLatest where
  upper : ℝ
  middle : ℚ
  lower : ℝ

structure CrossFlags where
  goldenCross : Bool
  deathCross : Bool
  macdBullish : Bool
  macdBearish : Bool

structure IndicatorSnapshot where
  rsi : ℚ
  macd : MACDLatest
  ma20 : ℚ
  ma50 : ℚ
  bollinger : BollingerLatest
  price : ℚ
  crosses : CrossFlags

/-- getLatestIndicators: RSI(14), MACD(12,26,9), SMA(20), SMA(50),
Bollinger(20,2) on the closes; the snapshot takes the last value of each
plus the four cross flags.  The `highs` and `lows` arguments appear in the
signature but are never read by the body, exactly as in the source. -/
noncomputable def getLatestIndicators (closes highs lows : List ℚ) :
    Except String IndicatorSnapshot := do
  let rsiValues ← calculateRSI closes 14
  let macdData ← calculateMACD closes 12 26 9
  let ma20 ← calculateSMA closes 20
  let ma50 ← calculateSMA closes 50
  let bbData ← calculateBollingerBands closes 20 2
  let currentPrice := closes.getD (closes.length - 1) 0
  Except.ok
    { rsi := rsiValues.getD (rsiValues.length - 1) 0
      macd :=
        { value := macdData.macdLine.getD (macdData.macdLine.length - 1) 0
          signal := macdData.signalLine.getD (macdData.signalLine.length - 1) 0
          histogram := macdData.histogram.getD (macdData.histogram.length - 1) 0 }
      ma20 := ma20.getD (ma20.length - 1) 0
      ma50 := ma50.getD (ma50.length - 1) 0
      bollinger :=
        { upper := bbData.upper.getD (bbData.upper.length - 1) 0
          middle := bbData.middle.getD (bbData.middle.length - 1) 0
          lower := bbData.lower.getD (bbData.lower.length - 1) 0 }
      price := currentPrice
      crosses :=
        { goldenCross := isGoldenCross ma20 ma50
          deathCross := isDeathCross ma20 ma50
          macdBullish := isMACDBullishCross macdData.histogram
          macdBearish := isMACDBearishCross macdData.histogram } }

/-! ## Filter criteria and predicate (filters.js, matchesFilters) -/

structure RsiFilter where
  below : Option ℚ
  above : Option ℚ
  between : Option (ℚ × ℚ)

structure MacdFilter where
  bullish : Bool
  bearish : Bool
  histogramPositive : Option Bool

structure MaFilter where
  goldenCross : Bool
  deathCross : Bool
  above : Option ℕ
  below : Option ℕ

structure BollingerFilter where
  touchUpper : Bool
  touchLower : Bool
  belowLower : Bool
  aboveUpper : Bool
  narrow : Bool
  wide : Bool

structure PriceFilter where
  min : Option ℚ
  max : Option ℚ

structure Filters where
  rsi : Option RsiFilter
  macd : Option MacdFilter
  ma : Option MaFilter
  bollinger : Option BollingerFilter
  price : Option PriceFilter

/-- A criteria object with no category present (`Object.keys(filters)` is
empty in the source). -/
def Filters.isEmpty (f : Filters) : Bool :=
  f.rsi.isNone && f.macd.isNone && f.ma.isNone && f.bollinger.isNone &&
    f.price.isNone

/-- RSI category: below is strict `<`, above is strict `>`, between is an
inclusive range. -/
def checkRsi (indicators : IndicatorSnapshot) (f : Option RsiFilter) : Bool :=
  match f with
  | none => true
  | some r =>
    (match r.below with
     | none => true
     | some v => decide (indicators.rsi < v)) &&
    (match r.above with
     | none => true
     | some v => decide (v < indicators.rsi)) &&
    (match r.between with
     | none => true
     | some mm => decide (mm.1 ≤ indicators.rsi) && decide (indicators.rsi ≤ mm.2))

/-- MACD category: bullish/bearish cross flags; histogramPositive compares
the sign of the histogram with the requested flag. -/
def checkMacd (indicators : IndicatorSnapshot) (f : Option MacdFilter) : Bool :=
  match f with
  | none => true
  | some m =>
    (!m.bullish || indicators.crosses.macdBullish) &&
    (!m.bearish || indicators.crosses.macdBearish) &&
    (match m.histogramPositive with
     | none => true
     | some flag => decide (0 < indicators.macd.histogram) == flag)

/-- MA category: cross flags and price strictly above/below MA20 or MA50. -/
def checkMa (indicators : IndicatorSnapshot) (f : Option MaFilter) : Bool :=
  match f with
  | none => true
  | some m =>
    (!m.goldenCross || indicators.crosses.goldenCross) &&
    (!m.deathCross || indicators.crosses.deathCross) &&
    (match m.above with
     | none => true
     | some v =>
       (if v = 20 then decide (indicators.ma20 < indicators.price) else true) &&
       (if v = 50 then decide (indicators.ma50 < indicators.price) else true)) &&
    (match m.below with
     | none => true
     | some v =>
       (if v = 20 then decide (indicators.price < indicators.ma20) else true) &&
       (if v = 50 then decide (indicators.price < indicators.ma50) else true))

/-- Bollinger category: touch thresholds at 0.995/1.005 of the band, strict
break-out tests, and bandwidth-based narrow/wide tests. -/
noncomputable def checkBollinger (indicators : IndicatorSnapshot)
    (f : Option BollingerFilter) : Bool :=
  match f with
  | none => true
  | some b =>
    let upper := indicators.bollinger.upper
    let middle := indicators.bollinger.middle
    let lower := indicators.bollinger.lower
    let bandwidth : ℝ := (upper - lower) / (middle : ℝ)
    (!b.touchUpper || decide (upper * 0.995 ≤ (indicators.price : ℝ))) &&
    (!b.touchLower || decide ((indicators.price : ℝ) ≤ lower * 1.005)) &&
    (!b.belowLower || decide ((indicators.price : ℝ) < lower)) &&
    (!b.aboveUpper || decide (upper < (indicators.price : ℝ))) &&
    (!b.narrow || decide (bandwidth ≤ 0.1)) &&
    (!b.wide || decide (0.1 ≤ bandwidth))

/-- Price category: inclusive min/max bounds. -/
def checkPrice (indicators : IndicatorSnapshot) (f : Option PriceFilter) : Bool :=
  match f with
  | none => true
  | some p =>
    (match p.min with
     | none => true
     | some v => decide (v ≤ indicators.price)) &&
    (match p.max with
     | none => true
     | some v => decide (indicators.price ≤ v))

/-- matchesFilters: empty criteria match everything, otherwise every present
category must pass (the source's early returns AND the categories). -/
noncomputable def matchesFilters (indicators : IndicatorSnapshot)
    (filters : Filters) : Bool :=
  if filters.isEmpty then true
  else
    checkRsi indicators filters.rsi &&
    checkMacd indicators filters.macd &&
    checkMa indicators filters.ma &&
    checkBollinger indicators filters.bollinger &&
    checkPrice indicators filters.price

/-! ## Scorer (filters.js, calculateScore) -/

/-- calculateScore: base 50, an RSI extremity bonus, 15 for a MACD bullish
cross, 15 for a golden cross, 10 near each Bollinger band edge (position
within the band below 0.1 or above 0.9), clamped into [0, 100]. -/
noncomputable def calculateScore (indicators : IndicatorSnapshot) : ℚ :=
  let score0 : ℚ := 50
  let score1 : ℚ :=
    if indicators.rsi < 30 then score0 + (30 - indicators.rsi)
    else if 70 < indicators.rsi then score0 + (indicators.rsi - 70)
    else score0
  let score2 : ℚ := if indicators.crosses.macdBullish then score1 + 15 else score1
  let score3 : ℚ := if indicators.crosses.goldenCross then score2 + 15 else score2
  let bandWidth : ℝ := indicators.bollinger.upper - indicators.bollinger.lower
  let position : ℝ := ((indicators.price : ℝ) - indicators.bollinger.lower) / bandWidth
  let score4 : ℚ := if position < 0.1 then score3 + 10 else score3
  let score5 : ℚ := if 0.9 < position then score4 + 10 else score4
  min 100 (max 0 score5)

/-! ## Batched retrieval (api.js, fetchKlinesBatch)

A raw kline is a row of numbers as returned by the exchange; `parseKlines`
reads open/high/low/close/volume from positions 1–5.  The network effect of
`fetchKlines` is abstracted as an oracle `String → Option (List Kline)`
(`none` models a failed fetch, which the source logs and turns into `null`).
The orchestrator's observable scheduling behaviour is recorded as a trace of
events: one `fetchAttempt` and one `requestDelay` per symbol, and one
`interBatchDelay` between consecutive batches. -/

def Kline : Type := List ℚ

structure ParsedKlines where
  opens : List ℚ
  highs : List ℚ
  lows : List ℚ
  closes : List ℚ
  volumes : List ℚ

/-- parseKlines: positional fields 1..5 of each row. -/
def parseKlines (klines : List Kline) : ParsedKlines :=
  { opens := klines.map (fun k => k.getD 1 0)
    highs := klines.map (fun k => k.getD 2 0)
    lows := klines.map (fun k => k.getD 3 0)
    closes := klines.map (fun k => k.getD 4 0)
    volumes := klines.map (fun k => k.getD 5 0) }

inductive BatchEvent where
  | fetchAttempt (symbol : String)
  | requestDelay
  | interBatchDelay
deriving DecidableEq

/-- Inner loop over one batch: every symbol is fetched (one attempt and one
request delay each); a symbol enters the result map only when its fetch
succeeded with a non-empty payload. -/
def runBatchSymbols (oracle : String → Option (List Kline)) :
    List String → List (String × List Kline) × List BatchEvent
  | [] => ([], [])
  | s :: rest =>
    let r := runBatchSymbols oracle rest
    let here : List (String × List Kline) :=
      match oracle s with
      | some ks => if 0 < ks.length then [(s, ks)] else []
      | none => []
    (here ++ r.1, BatchEvent.fetchAttempt s :: BatchEvent.requestDelay :: r.2)

/-- Outer loop: take one batch of `batchSize` symbols, process it, and issue
an inter-batch delay exactly when further symbols remain.  The `fuel`
argument makes the recursion structural; with `0 < batchSize` and
`fuel ≥ symbols.length` it never runs out (the source's loop index strictly
increases by `batchSize`; with a batch size of 0 the source itself would
never terminate). -/
def fetchKlinesBatchGo (oracle : String → Option (List Kline)) (batchSize : ℕ) :
    ℕ → List String → List (String × List Kline) × List BatchEvent
  | 0, _ => ([], [])
  | _, [] => ([], [])
  | fuel + 1, symbols =>
    let batchResult := runBatchSymbols oracle (symbols.take batchSize)
    let rest := symbols.drop batchSize
    if rest.isEmpty then batchResult
    else
      let r := fetchKlinesBatchGo oracle batchSize fuel rest
      (batchResult.1 ++ r.1,
       batchResult.2 ++ BatchEvent.interBatchDelay :: r.2)

/-- fetchKlinesBatch for an arbitrary configured batch size. -/
def fetchKlinesBatchModel (oracle : String → Option (List Kline))
    (batchSize : ℕ) (symbols : List String) :
    List (String × List Kline) × List BatchEvent :=
  fetchKlinesBatchGo oracle batchSize symbols.length symbols

/-- The configured batch size constant of the source. -/
def BATCH_SIZE : ℕ := 20

/-- fetchKlinesBatch with the source's configured batch size. -/
def fetchKlinesBatch (oracle : String → Option (List Kline))
    (symbols : List String) : List (String × List Kline) × List BatchEvent :=
  fetchKlinesBatchModel oracle BATCH_SIZE symbols

/-! ## Scan loop (binance-screener.js, scanSymbols)

The part of `scanSymbols` that follows the fetch: iterate over the fetched
map, counting every entry, analysing only entries with at least 100
candles, skipping entries whose indicator computation fails, collecting a
scored result for every entry that matches the criteria, then sorting by
score descending and truncating to `maxResults` when it is positive. -/

structure ScanResult where
  symbol : String
  price : ℚ
  indicators : IndicatorSnapshot
  crosses : CrossFlags
  score : ℚ

structure ScanReport where
  filters : Filters
  results : List ScanResult
  totalScanned : ℕ
  matchedCount : ℕ

/-- One iteration of the scan loop: the scanned counter always increases;
the result list grows exactly when the entry has at least 100 candles, its
indicators compute, and the criteria match. -/
noncomputable def scanStep (filters : Filters)
    (acc : List ScanResult × ℕ) (entry : String × List Kline) :
    List ScanResult × ℕ :=
  if entry.2.length < 100 then (acc.1, acc.2 + 1)
  else
    let parsed := parseKlines entry.2
    match getLatestIndicators parsed.closes parsed.highs parsed.lows with
    | Except.error _ => (acc.1, acc.2 + 1)
    | Except.ok indicators =>
      if matchesFilters indicators filters then
        (acc.1 ++ [{ symbol := entry.1
                     price := indicators.price
                     indicators := indicators
                     crosses := indicators.crosses
                     score := calculateScore indicators }], acc.2 + 1)
      else (acc.1, acc.2 + 1)

/-- scanSymbols (post-fetch part): fold the scan step over the fetched map,
sort matches by descending score, optionally truncate. -/
noncomputable def scanSymbols (klinesMap : List (String × List Kline))
    (filters : Filters) (maxResults : ℕ) : ScanReport :=
  let folded := klinesMap.foldl (scanStep filters) ([], 0)
  let sorted := folded.1.mergeSort (fun a b => decide (b.score ≤ a.score))
  { filters := filters
    results := if 0 < maxResults then sorted.take maxResults else sorted
    totalScanned := folded.2
    matchedCount := sorted.length }

/-- Whether one fetched entry produces a match in the scan loop: at least
100 candles, indicators compute, and the criteria match.  Mirrors the
branch structure of `scanStep`. -/
noncomputable def seriesMatches (filters : Filters)
    (entry : String × List Kline) : Bool :=
  if entry.2.length < 100 then false
  else
    let parsed := parseKlines entry.2
    match getLatestIndicators parsed.closes parsed.highs parsed.lows with
    | Except.error _ => false
    | Except.ok indicators => matchesFilters indicators filters

/-- Following the spec's words: the number of fetched series that actually
reach indicator computation, i.e. pass the 100-candle pre-check of the scan
loop (the spec describes `totalScanned` as the count of series analysed,
including those whose indicator computation then fails). -/
def analyzedCount (klinesMap : List (String × List Kline)) : ℕ :=
  (klinesMap.filter (fun entry => decide (100 ≤ entry.2.length))).length

/-! ## General helper lemmas -/

theorem getD_range_map {α : Type} (f : ℕ → α) (n i : ℕ) (d : α) (h : i < n) :
    ((List.range n).map f).getD i d = f i := by
  rw [List.getD_eq_getElem?_getD, List.getElem?_map, List.getElem?_range h]
  rfl

theorem except_isOk_iff_exists {α : Type} (x : Except String α) :
    x.isOk = true ↔ ∃ a, x = Except.ok a := by
  cases x <;> simp [Except.isOk, Except.toBool]

theorem except_bind_isOk {α β : Type} (x : Except String α)
    (f : α → Except String β) :
    (x >>= f).isOk = true ↔ ∃ a, x = Except.ok a ∧ (f a).isOk = true := by
  cases x <;> simp [Bind.bind, Except.bind, Except.isOk, Except.toBool]

theorem list_sum_eq_zero_iff_of_nonneg (l : List ℚ) (h : ∀ x ∈ l, 0 ≤ x) :
    l.sum = 0 ↔ ∀ x ∈ l, x = 0 := by
  induction l with
  | nil => simp
  | cons a t ih =>
    have ha : 0 ≤ a := h a (List.mem_cons_self a t)
    have ht : ∀ x ∈ t, 0 ≤ x := fun x hx => h x (List.mem_cons_of_mem a hx)
    have hts : 0 ≤ t.sum := List.sum_nonneg ht
    simp only [List.sum_cons, List.mem_cons, forall_eq_or_imp]
    rw [add_eq_zero_iff_of_nonneg ha hts, ih ht]

/-! ## C1: RSI range and the 100-value characterisation -/

theorem rsiGains_nonneg (closes : List ℚ) : ∀ x ∈ rsiGains closes, 0 ≤ x := by
  intro x hx
  unfold rsiGains at hx
  obtain ⟨c, _, rfl⟩ := List.mem_map.mp hx
  split
  · rename_i h
    exact le_of_lt h
  · exact le_refl 0

theorem rsiLosses_nonneg (closes : List ℚ) : ∀ x ∈ rsiLosses closes, 0 ≤ x := by
  intro x hx
  unfold rsiLosses at hx
  obtain ⟨c, _, rfl⟩ := List.mem_map.mp hx
  split
  · exact abs_nonneg c
  · exact le_refl 0

theorem rsiOf_bounds (a b : ℚ) (ha : 0 ≤ a) (hb : 0 ≤ b) :
    0 ≤ rsiOf a b ∧ rsiOf a b ≤ 100 := by
  unfold rsiOf
  split
  · norm_num
  · rename_i hb0
    have hrs : 0 ≤ a / b := div_nonneg ha hb
    have h1 : (0 : ℚ) < 1 + a / b := by linarith
    constructor
    · have h2 : 100 / (1 + a / b) ≤ 100 := by
        rw [div_le_iff h1]
        nlinarith
      linarith
    · have h3 : 0 < 100 / (1 + a / b) := by positivity
      linarith

theorem rsiOf_eq_100_iff (a b : ℚ) (ha : 0 ≤ a) (hb : 0 ≤ b) :
    rsiOf a b = 100 ↔ b = 0 := by
  unfold rsiOf
  split
  · rename_i h
    simp [h]
  · rename_i hb0
    have hrs : 0 ≤ a / b := div_nonneg ha hb
    have h1 : (0 : ℚ) < 1 + a / b := by linarith
    have h3 : 0 < 100 / (1 + a / b) := by positivity
    constructor
    · intro hcon
      linarith
    · intro hcon
      exact absurd hcon hb0

theorem rsiStep_nonneg (period : ℕ) (avg gl : ℚ × ℚ)
    (h1 : 0 ≤ avg.1) (h2 : 0 ≤ avg.2) (g1 : 0 ≤ gl.1) (g2 : 0 ≤ gl.2) :
    0 ≤ (rsiStep period avg gl).1 ∧ 0 ≤ (rsiStep period avg gl).2 := by
  unfold rsiStep
  rcases Nat.eq_zero_or_pos period with hp | hp
  · subst hp
    norm_num
  · have hp1 : (1 : ℚ) ≤ (period : ℚ) := by exact_mod_cast hp
    have hpq : (0 : ℚ) < (period : ℚ) := by linarith
    constructor
    · apply div_nonneg _ (le_of_lt hpq)
      have := mul_nonneg h1 (by linarith : (0 : ℚ) ≤ (period : ℚ) - 1)
      linarith
    · apply div_nonneg _ (le_of_lt hpq)
      have := mul_nonneg h2 (by linarith : (0 : ℚ) ≤ (period : ℚ) - 1)
      linarith

theorem scanl_rsiStep_nonneg (period : ℕ) (l : List (ℚ × ℚ)) :
    ∀ (init : ℚ × ℚ), 0 ≤ init.1 → 0 ≤ init.2 →
      (∀ p ∈ l, 0 ≤ p.1 ∧ 0 ≤ p.2) →
      ∀ a ∈ List.scanl (rsiStep period) init l, 0 ≤ a.1 ∧ 0 ≤ a.2 := by
  induction l with
  | nil =>
    intro init h1 h2 _ a ha
    rw [List.scanl_nil] at ha
    simp only [List.mem_singleton] at ha
    subst ha
    exact ⟨h1, h2⟩
  | cons x xs ih =>
    intro init h1 h2 hl a ha
    rw [List.scanl_cons] at ha
    simp only [List.singleton_append, List.mem_cons] at ha
    rcases ha with rfl | ha
    · exact ⟨h1, h2⟩
    · have hx := hl x (List.mem_cons_self x xs)
      have hstep := rsiStep_nonneg period init x h1 h2 hx.1 hx.2
      exact ih (rsiStep period init x) hstep.1 hstep.2
        (fun p hp => hl p (List.mem_cons_of_mem x hp)) a ha

/-- C1 (amended).  When at least `period + 1` closes are supplied,
`calculateRSI` succeeds, every returned value lies in [0, 100], and the
FIRST returned value equals 100 exactly when all losses in the initial
window (the first `period` deltas) are zero.  (The 100-characterisation
holds for the first value only, not for every returned value; see the
counterexample.) -/
theorem calculateRSI_range_and_first (closes : List ℚ) (period : ℕ)
    (h : period + 1 ≤ closes.length) :
    ∃ rs, calculateRSI closes period = Except.ok rs ∧
      (∀ x ∈ rs, 0 ≤ x ∧ x ≤ 100) ∧
      (rs.head? = some 100 ↔ ∀ l ∈ (rsiLosses closes).take period, l = 0) := by
  have hseed1 : 0 ≤ (List.take period (rsiGains closes)).sum / (period : ℚ) :=
    div_nonneg
      (List.sum_nonneg fun y hy => rsiGains_nonneg closes y (List.take_subset _ _ hy))
      (by positivity)
  have hseed2 : 0 ≤ (List.take period (rsiLosses closes)).sum / (period : ℚ) :=
    div_nonneg
      (List.sum_nonneg fun y hy => rsiLosses_nonneg closes y (List.take_subset _ _ hy))
      (by positivity)
  refine ⟨rsiCore closes period, ?_, ?_, ?_⟩
  · unfold calculateRSI
    rw [if_neg (by omega)]
  · intro x hx
    unfold rsiCore at hx
    simp only [List.mem_map] at hx
    obtain ⟨a, ha, rfl⟩ := hx
    have hmem : ∀ p ∈ (List.zip (rsiGains closes) (rsiLosses closes)).drop period,
        0 ≤ p.1 ∧ 0 ≤ p.2 := by
      intro p hp
      obtain ⟨p1, p2⟩ := p
      have hz := List.of_mem_zip (List.mem_of_mem_drop hp)
      exact ⟨rsiGains_nonneg _ _ hz.1, rsiLosses_nonneg _ _ hz.2⟩
    have hinv := scanl_rsiStep_nonneg period _ _ hseed1 hseed2 hmem a ha
    exact rsiOf_bounds a.1 a.2 hinv.1 hinv.2
  · unfold rsiCore
    rw [List.head?_eq_getElem?, List.getElem?_map, List.getElem?_scanl_zero]
    simp only [Option.map_some', Option.some.injEq]
    rw [rsiOf_eq_100_iff _ _ hseed1 hseed2]
    rcases Nat.eq_zero_or_pos period with hp | hp
    · subst hp
      simp
    · have hpq : ((period : ℚ)) ≠ 0 := by positivity
      rw [div_eq_zero_iff]
      simp only [Rat.cast_natCast, hpq, or_false]
      exact list_sum_eq_zero_iff_of_nonneg _
        (fun y hy => rsiLosses_nonneg closes y (List.take_subset _ _ hy))

/-- Witness for C1 at a concrete input. -/
theorem calculateRSI_range_and_first_witness :
    1 + 1 ≤ ([1, 2, 3] : List ℚ).length ∧
      ∃ rs, calculateRSI [1, 2, 3] 1 = Except.ok rs ∧
        (∀ x ∈ rs, 0 ≤ x ∧ x ≤ 100) ∧
        (rs.head? = some 100 ↔ ∀ l ∈ (rsiLosses [1, 2, 3]).take 1, l = 0) :=
  ⟨by decide, calculateRSI_range_and_first [1, 2, 3] 1 (by decide)⟩

/-- Counterexample for C1 as stated: on closes `[1, 2, 3, 2]` with period 2
all losses of the initial window are zero, yet the returned sequence is
`[100, 50]`, whose second value is not 100.  So it is not the case that
every returned RSI value is 100 exactly when the initial-window losses are
all zero; only the first value satisfies that biconditional. -/
theorem calculateRSI_not_every_value_100_iff :
    ¬ ∀ rs, calculateRSI [1, 2, 3, 2] 2 = Except.ok rs →
        ∀ x ∈ rs, (x = 100 ↔ ∀ l ∈ (rsiLosses [1, 2, 3, 2]).take 2, l = 0) := by
  intro hcon
  have hok : calculateRSI [1, 2, 3, 2] 2 = Except.ok [100, 50] := by
    norm_num [calculateRSI, rsiCore, rsiGains, rsiLosses, rsiChanges, rsiOf,
      rsiStep, List.scanl_cons, List.scanl_nil]
  have h50 := hcon [100, 50] hok 50 (by simp)
  have hzero : ∀ l ∈ (rsiLosses [1, 2, 3, 2]).take 2, l = 0 := by
    norm_num [rsiLosses, rsiChanges]
  have hfalse : (50 : ℚ) = 100 := h50.mpr hzero
  norm_num at hfalse

/-! ## C2: the score is always clamped into [0, 100] -/

/-- C2.  For every indicator snapshot (any rational rsi and price, any cross
flags, any real Bollinger bands), `calculateScore` returns a value in
[0, 100]: the final `min 100 (max 0 _)` clamps whatever the accumulated
bonuses produced. -/
theorem calculateScore_mem_Icc (indicators : IndicatorSnapshot) :
    0 ≤ calculateScore indicators ∧ calculateScore indicators ≤ 100 := by
  unfold calculateScore
  exact ⟨le_min (by norm_num) (le_max_left 0 _), min_le_left _ _⟩

/-! ## C4: MACD succeeds exactly when enough closes are supplied -/

theorem calculateEMA_ok_of_le (prices : List ℚ) (period : ℕ)
    (h : period ≤ prices.length) :
    calculateEMA prices period = Except.ok (emaList prices period) := by
  unfold calculateEMA
  rw [if_neg (by omega)]

theorem emaList_length (prices : List ℚ) (period : ℕ) :
    (emaList prices period).length = prices.length - period + 1 := by
  unfold emaList
  rw [List.length_scanl, List.length_drop]

/-- Success of `calculateMACD` is equivalent to having at least
`slow + signal` closes, for any sensible parameterisation with
`fast ≤ slow` (shared between the C4 and C9 developments). -/
theorem calculateMACD_isOk_aux (closes : List ℚ) (fast slow signal : ℕ)
    (hfs : fast ≤ slow) :
    (calculateMACD closes fast slow signal).isOk = true ↔
      slow + signal ≤ closes.length := by
  unfold calculateMACD
  split
  · rename_i hlt
    simp only [Except.isOk, Except.toBool, Bool.false_eq_true, false_iff]
    omega
  · rename_i hge
    have hlen : slow + signal ≤ closes.length := by omega
    have hfast : fast ≤ closes.length := by omega
    have hslow : slow ≤ closes.length := by omega
    rw [calculateEMA_ok_of_le closes fast hfast,
      calculateEMA_ok_of_le closes slow hslow]
    simp only [Bind.bind, Except.bind]
    have hmacdLen :
        ((List.range (emaList closes slow).length).map
          (fun i => (emaList closes fast).getD (i + (slow - fast)) 0 -
            (emaList closes slow).getD i 0)).length
          = closes.length - slow + 1 := by
      rw [List.length_map, List.length_range, emaList_length]
    rw [calculateEMA_ok_of_le _ signal (by rw [hmacdLen]; omega)]
    simp only [Except.isOk, Except.toBool, true_iff]
    omega

/-- C4.  `calculateMACD closes fast slow signal` (with `fast ≤ slow`)
raises InsufficientData exactly when fewer than `slow + signal` closes are
supplied: success is equivalent to `slow + signal ≤ closes.length`.  With
the default periods (12, 26, 9) a closes list of length 35 succeeds and one
of length 34 fails (see the witness). -/
theorem calculateMACD_raises_iff (closes : List ℚ) (fast slow signal : ℕ)
    (hfs : fast ≤ slow) :
    (calculateMACD closes fast slow signal).isOk = true ↔
      slow + signal ≤ closes.length :=
  calculateMACD_isOk_aux closes fast slow signal hfs

/-- Witness for C4: with the default periods, 35 closes succeed and 34
closes fail. -/
theorem calculateMACD_raises_iff_witness :
    (12 ≤ 26) ∧
    (calculateMACD (List.replicate 35 (0 : ℚ)) 12 26 9).isOk = true ∧
    (calculateMACD (List.replicate 34 (0 : ℚ)) 12 26 9).isOk = false := by
  refine ⟨by decide, ?_, ?_⟩
  · exact (calculateMACD_raises_iff (List.replicate 35 (0 : ℚ))
      12 26 9 (by decide)).mpr (by simp)
  · have h := calculateMACD_raises_iff (List.replicate 34 (0 : ℚ))
      12 26 9 (by decide)
    rw [← Bool.not_eq_true]
    intro hcon
    have h34 := h.mp hcon
    simp at h34

/-! ## C9: getLatestIndicators succeeds exactly when 50 closes are present -/

theorem calculateRSI_ok_of_le (closes : List ℚ) (period : ℕ)
    (h : period + 1 ≤ closes.length) :
    calculateRSI closes period = Except.ok (rsiCore closes period) := by
  unfold calculateRSI
  rw [if_neg (by omega)]

theorem calculateSMA_ok_of_le (prices : List ℚ) (period : ℕ)
    (h : period ≤ prices.length) :
    calculateSMA prices period = Except.ok (smaList prices period) := by
  unfold calculateSMA
  rw [if_neg (by omega)]

theorem calculateSMA_le_of_ok (prices : List ℚ) (period : ℕ) (ss : List ℚ)
    (h : calculateSMA prices period = Except.ok ss) :
    period ≤ prices.length := by
  unfold calculateSMA at h
  by_cases hlt : prices.length < period
  · rw [if_pos hlt] at h
    exact absurd h (by simp)
  · omega

theorem calculateBollingerBands_ok_of_le (prices : List ℚ) (period : ℕ)
    (stdDev : ℚ) (h : period ≤ prices.length) :
    calculateBollingerBands prices period stdDev
      = Except.ok (bollingerCore prices period stdDev) := by
  unfold calculateBollingerBands
  rw [if_neg (by omega)]

/-- C9.  `getLatestIndicators` succeeds exactly when at least 50 closes are
supplied: the SMA(50) lookback dominates RSI's 15, MACD's 35 and the
Bollinger/SMA(20) requirement of 20. -/
theorem getLatestIndicators_isOk_iff (closes highs lows : List ℚ) :
    (getLatestIndicators closes highs lows).isOk = true ↔ 50 ≤ closes.length := by
  constructor
  · intro h
    unfold getLatestIndicators at h
    rw [except_bind_isOk] at h
    obtain ⟨a, _, h⟩ := h
    rw [except_bind_isOk] at h
    obtain ⟨b, _, h⟩ := h
    rw [except_bind_isOk] at h
    obtain ⟨c, _, h⟩ := h
    rw [except_bind_isOk] at h
    obtain ⟨d, hd, _⟩ := h
    exact calculateSMA_le_of_ok closes 50 d hd
  · intro h
    unfold getLatestIndicators
    rw [except_bind_isOk]
    refine ⟨rsiCore closes 14, calculateRSI_ok_of_le closes 14 (by omega), ?_⟩
    have hmacd : (calculateMACD closes 12 26 9).isOk = true :=
      (calculateMACD_isOk_aux closes 12 26 9 (by omega)).mpr (by omega)
    obtain ⟨b, hb⟩ := (except_isOk_iff_exists _).mp hmacd
    rw [except_bind_isOk]
    refine ⟨b, hb, ?_⟩
    rw [except_bind_isOk]
    refine ⟨smaList closes 20, calculateSMA_ok_of_le closes 20 (by omega), ?_⟩
    rw [except_bind_isOk]
    refine ⟨smaList closes 50, calculateSMA_ok_of_le closes 50 (by omega), ?_⟩
    rw [except_bind_isOk]
    refine ⟨bollingerCore closes 20 2,
      calculateBollingerBands_ok_of_le closes 20 2 (by omega), ?_⟩
    simp [Except.isOk, Except.toBool]

/-! ## C6: Bollinger band ordering and the population deviation -/

/-- C6.  For a long-enough price list and every index of the output of
`calculateBollingerBands prices period 2`: the bands are built around the
middle band by adding/subtracting 2 times the square root of the population
variance of the window (squared-deviation sum divided by `period`), hence
`lower ≤ middle ≤ upper`, and all three collapse to the same value when the
window variance is zero. -/
theorem calculateBollingerBands_order (prices : List ℚ) (period i : ℕ)
    (hlen : period ≤ prices.length)
    (hi : i < (bollingerCore prices period 2).middle.length) :
    calculateBollingerBands prices period 2
        = Except.ok (bollingerCore prices period 2) ∧
    ((bollingerCore prices period 2).lower.getD i 0
        ≤ ((bollingerCore prices period 2).middle.getD i 0 : ℝ)) ∧
    (((bollingerCore prices period 2).middle.getD i 0 : ℝ)
        ≤ (bollingerCore prices period 2).upper.getD i 0) ∧
    ((bollingerCore prices period 2).upper.getD i 0
        = ((bollingerCore prices period 2).middle.getD i 0 : ℝ)
          + 2 * Real.sqrt (bollingerWindowVariance prices period i)) ∧
    ((bollingerCore prices period 2).lower.getD i 0
        = ((bollingerCore prices period 2).middle.getD i 0 : ℝ)
          - 2 * Real.sqrt (bollingerWindowVariance prices period i)) ∧
    (bollingerWindowVariance prices period i = 0 →
      (bollingerCore prices period 2).lower.getD i 0
        = (bollingerCore prices period 2).upper.getD i 0) := by
  have hi' : i < (smaList prices period).length := hi
  have hup : (bollingerCore prices period 2).upper.getD i 0
      = ((bollingerCore prices period 2).middle.getD i 0 : ℝ)
        + 2 * Real.sqrt (bollingerWindowVariance prices period i) := by
    simp only [bollingerCore]
    rw [getD_range_map _ _ _ _ hi']
    norm_num
  have hlow : (bollingerCore prices period 2).lower.getD i 0
      = ((bollingerCore prices period 2).middle.getD i 0 : ℝ)
        - 2 * Real.sqrt (bollingerWindowVariance prices period i) := by
    simp only [bollingerCore]
    rw [getD_range_map _ _ _ _ hi']
    norm_num
  have hsq : 0 ≤ Real.sqrt (bollingerWindowVariance prices period i) :=
    Real.sqrt_nonneg _
  refine ⟨calculateBollingerBands_ok_of_le prices period 2 hlen,
    ?_, ?_, hup, hlow, ?_⟩
  · rw [hlow]
    linarith
  · rw [hup]
    linarith
  · intro hv
    rw [hup, hlow, hv]
    norm_num

/-- Witness for C6 at a concrete input. -/
theorem calculateBollingerBands_order_witness :
    2 ≤ ([1, 3] : List ℚ).length ∧
    0 < (bollingerCore [1, 3] 2 2).middle.length ∧
    (calculateBollingerBands [1, 3] 2 2
        = Except.ok (bollingerCore [1, 3] 2 2) ∧
    ((bollingerCore [1, 3] 2 2).lower.getD 0 0
        ≤ ((bollingerCore [1, 3] 2 2).middle.getD 0 0 : ℝ)) ∧
    (((bollingerCore [1, 3] 2 2).middle.getD 0 0 : ℝ)
        ≤ (bollingerCore [1, 3] 2 2).upper.getD 0 0) ∧
    ((bollingerCore [1, 3] 2 2).upper.getD 0 0
        = ((bollingerCore [1, 3] 2 2).middle.getD 0 0 : ℝ)
          + 2 * Real.sqrt (bollingerWindowVariance [1, 3] 2 0)) ∧
    ((bollingerCore [1, 3] 2 2).lower.getD 0 0
        = ((bollingerCore [1, 3] 2 2).middle.getD 0 0 : ℝ)
          - 2 * Real.sqrt (bollingerWindowVariance [1, 3] 2 0)) ∧
    (bollingerWindowVariance [1, 3] 2 0 = 0 →
      (bollingerCore [1, 3] 2 2).lower.getD 0 0
        = (bollingerCore [1, 3] 2 2).upper.getD 0 0)) :=
  ⟨by decide, by decide, calculateBollingerBands_order [1, 3] 2 0 (by decide) (by decide)⟩

/-! ## C8: batch pacing, failure isolation, and the result map -/

theorem runBatchSymbols_no_interBatchDelay
    (oracle : String → Option (List Kline)) (batch : List String) :
    (runBatchSymbols oracle batch).2.count BatchEvent.interBatchDelay = 0 := by
  induction batch with
  | nil => rfl
  | cons s rest ih =>
    simp [runBatchSymbols, List.count_cons, ih]

theorem runBatchSymbols_fetch_mem (oracle : String → Option (List Kline))
    (batch : List String) (s : String) (hs : s ∈ batch) :
    BatchEvent.fetchAttempt s ∈ (runBatchSymbols oracle batch).2 := by
  induction batch with
  | nil => cases hs
  | cons a rest ih =>
    simp only [runBatchSymbols, List.mem_cons]
    rcases List.mem_cons.mp hs with rfl | hmem
    · left
      rfl
    · right
      right
      exact ih hmem

theorem runBatchSymbols_results_ok (oracle : String → Option (List Kline))
    (batch : List String) :
    ∀ p ∈ (runBatchSymbols oracle batch).1, ∃ ks, oracle p.1 = some ks := by
  induction batch with
  | nil =>
    intro p hp
    cases hp
  | cons a rest ih =>
    intro p hp
    simp only [runBatchSymbols] at hp
    rw [List.mem_append] at hp
    rcases hp with hp | hp
    · revert hp
      cases ho : oracle a with
      | none =>
        intro hp
        simp at hp
      | some ks =>
        intro hp
        dsimp only at hp
        by_cases hk : 0 < ks.length
        · rw [if_pos hk] at hp
          simp only [List.mem_singleton] at hp
          subst hp
          exact ⟨ks, ho⟩
        · rw [if_neg hk] at hp
          cases hp
    · exact ih p hp

theorem fetchGo_delay_count (oracle : String → Option (List Kline)) (B : ℕ)
    (hB : 0 < B) :
    ∀ (fuel : ℕ) (symbols : List String), symbols ≠ [] → symbols.length ≤ fuel →
      (fetchKlinesBatchGo oracle B fuel symbols).2.count BatchEvent.interBatchDelay
        = (symbols.length + B - 1) / B - 1 := by
  intro fuel
  induction fuel with
  | zero =>
    intro symbols hne hlen
    exact absurd (List.eq_nil_of_length_eq_zero (by omega)) hne
  | succ n ih =>
    intro symbols hne hlen
    obtain ⟨a, as, rfl⟩ := List.exists_cons_of_ne_nil hne
    simp only [fetchKlinesBatchGo]
    by_cases hrest : ((a :: as).drop B).isEmpty
    · rw [if_pos hrest]
      have hle : (a :: as).length ≤ B := by
        rw [List.isEmpty_iff] at hrest
        exact List.drop_eq_nil_iff.mp hrest
      have hdiv : ((a :: as).length + B - 1) / B = 1 := by
        apply Nat.div_eq_of_lt_le
        · simp
        · have h2 : (1 + 1) * B = B + B := by ring
          rw [h2]
          have : 0 < (a :: as).length := by simp
          omega
      rw [runBatchSymbols_no_interBatchDelay, hdiv]
    · rw [if_neg hrest]
      have hgt : B < (a :: as).length := by
        rw [List.isEmpty_iff] at hrest
        have := mt List.drop_eq_nil_iff.mpr hrest
        omega
      have hrne : (a :: as).drop B ≠ [] := by
        rw [List.isEmpty_iff] at hrest
        exact hrest
      have hrlen : ((a :: as).drop B).length ≤ n := by
        rw [List.length_drop]
        omega
      rw [List.count_append, List.count_cons, runBatchSymbols_no_interBatchDelay,
        ih ((a :: as).drop B) hrne hrlen, List.length_drop]
      have e1 : (a :: as).length - B + B - 1 = (a :: as).length - 1 := by omega
      have e2 : (a :: as).length + B - 1 = ((a :: as).length - 1) + B := by omega
      rw [e1, e2, Nat.add_div_right _ hB]
      have hq : 1 ≤ ((a :: as).length - 1) / B :=
        (Nat.le_div_iff_mul_le hB).mpr (by omega)
      simp only [beq_self_eq_true, if_true]
      omega

theorem fetchGo_fetch_mem (oracle : String → Option (List Kline)) (B : ℕ)
    (hB : 0 < B) :
    ∀ (fuel : ℕ) (symbols : List String), symbols.length ≤ fuel →
      ∀ s ∈ symbols,
        BatchEvent.fetchAttempt s ∈ (fetchKlinesBatchGo oracle B fuel symbols).2 := by
  intro fuel
  induction fuel with
  | zero =>
    intro symbols hlen s hs
    have hnil : symbols = [] := List.eq_nil_of_length_eq_zero (by omega)
    subst hnil
    cases hs
  | succ n ih =>
    intro symbols hlen s hs
    obtain ⟨a, as, rfl⟩ := List.exists_cons_of_ne_nil (List.ne_nil_of_mem hs)
    simp only [fetchKlinesBatchGo]
    by_cases hrest : ((a :: as).drop B).isEmpty
    · rw [if_pos hrest]
      apply runBatchSymbols_fetch_mem
      have hle : (a :: as).length ≤ B := by
        rw [List.isEmpty_iff] at hrest
        exact List.drop_eq_nil_iff.mp hrest
      rw [List.take_of_length_le hle]
      exact hs
    · rw [if_neg hrest]
      have hgt : B < (a :: as).length := by
        rw [List.isEmpty_iff] at hrest
        have := mt List.drop_eq_nil_iff.mpr hrest
        omega
      have hsplit : s ∈ (a :: as).take B ∨ s ∈ (a :: as).drop B := by
        rw [← List.mem_append, List.take_append_drop]
        exact hs
      rcases hsplit with h1 | h1
      · exact List.mem_append_left _ (runBatchSymbols_fetch_mem oracle _ s h1)
      · apply List.mem_append_right
        apply List.mem_cons_of_mem
        exact ih ((a :: as).drop B) (by rw [List.length_drop]; omega) s h1

theorem fetchGo_results_ok (oracle : String → Option (List Kline)) (B : ℕ) :
    ∀ (fuel : ℕ) (symbols : List String) (p : String × List Kline),
      p ∈ (fetchKlinesBatchGo oracle B fuel symbols).1 →
      ∃ ks, oracle p.1 = some ks := by
  intro fuel
  induction fuel with
  | zero =>
    intro symbols p hp
    simp [fetchKlinesBatchGo] at hp
  | succ n ih =>
    intro symbols p hp
    cases symbols with
    | nil => simp [fetchKlinesBatchGo] at hp
    | cons a as =>
      simp only [fetchKlinesBatchGo] at hp
      by_cases hrest : ((a :: as).drop B).isEmpty
      · rw [if_pos hrest] at hp
        exact runBatchSymbols_results_ok oracle _ p hp
      · rw [if_neg hrest] at hp
        rw [List.mem_append] at hp
        rcases hp with hp | hp
        · exact runBatchSymbols_results_ok oracle _ p hp
        · exact ih _ p hp

/-- C8.  For a non-empty symbol list and a positive batch size `B`, the
orchestrator issues exactly `ceil(N/B) - 1` inter-batch delays (written
`(N + B - 1) / B - 1` in natural division); every symbol is attempted (one
fetch event per symbol, regardless of which fetches fail); and a symbol
whose fetch fails never appears in the returned map. -/
theorem fetchKlinesBatch_schedule (oracle : String → Option (List Kline))
    (B : ℕ) (symbols : List String) (hB : 0 < B) (hne : symbols ≠ []) :
    ((fetchKlinesBatchModel oracle B symbols).2.count BatchEvent.interBatchDelay
        = (symbols.length + B - 1) / B - 1) ∧
    (∀ s ∈ symbols,
        BatchEvent.fetchAttempt s ∈ (fetchKlinesBatchModel oracle B symbols).2) ∧
    (∀ s, oracle s = none →
        ∀ ks, (s, ks) ∉ (fetchKlinesBatchModel oracle B symbols).1) := by
  unfold fetchKlinesBatchModel
  refine ⟨fetchGo_delay_count oracle B hB symbols.length symbols hne le_rfl,
    fun s hs => fetchGo_fetch_mem oracle B hB symbols.length symbols le_rfl s hs,
    fun s hnone ks hmem => ?_⟩
  obtain ⟨ks2, hks⟩ := fetchGo_results_ok oracle B symbols.length symbols (s, ks) hmem
  rw [hnone] at hks
  cases hks

/-- Fetch oracle used by the C8 witness: the fetch of symbol "B" fails,
the others return one kline row. -/
def oracleFailB : String → Option (List Kline) :=
  fun s => if s = "B" then none else some [[1]]

/-- Witness for C8 at a concrete input: three symbols, batch size two, the
middle symbol's fetch failing. -/
theorem fetchKlinesBatch_schedule_witness :
    (0 < 2) ∧ ((["A", "B", "C"] : List String) ≠ []) ∧
    (((fetchKlinesBatchModel oracleFailB 2 ["A", "B", "C"]).2.count
          BatchEvent.interBatchDelay
        = ((["A", "B", "C"] : List String).length + 2 - 1) / 2 - 1) ∧
     (∀ s ∈ (["A", "B", "C"] : List String),
        BatchEvent.fetchAttempt s
          ∈ (fetchKlinesBatchModel oracleFailB 2 ["A", "B", "C"]).2) ∧
     (∀ s, oracleFailB s = none →
        ∀ ks, (s, ks) ∉ (fetchKlinesBatchModel oracleFailB 2 ["A", "B", "C"]).1)) :=
  ⟨by decide, by decide,
    fetchKlinesBatch_schedule oracleFailB 2 ["A", "B", "C"] (by decide) (by decide)⟩

/-! ## C10: getLatestIndicators never reads highs or lows -/

/-- C10.  The snapshot returned by `getLatestIndicators` depends only on the
closes: the `highs` and `lows` arguments are never read, so two calls with
the same closes and arbitrary differing highs/lows return identical
results. -/
theorem getLatestIndicators_ignores_highs_lows
    (closes highs lows highs2 lows2 : List ℚ) :
    getLatestIndicators closes highs lows = getLatestIndicators closes highs2 lows2 :=
  rfl

/-! ## C7: rsi.below is a strict inequality -/

/-- Criteria consisting solely of `rsi.below v`. -/
def rsiBelowFilter (v : ℚ) : Filters :=
  { rsi := some { below := some v, above := none, between := none }
    macd := none
    ma := none
    bollinger := none
    price := none }

/-- C7.  With criteria containing only `rsi.below v`, `matchesFilters`
returns true exactly when the snapshot's rsi is strictly below `v`; in
particular a snapshot with rsi 28.5 matches `rsi.below 30` and one with
rsi 30 does not. -/
theorem matchesFilters_rsiBelow_strict :
    (∀ (indicators : IndicatorSnapshot) (v : ℚ),
        matchesFilters indicators (rsiBelowFilter v) = true ↔ indicators.rsi < v) ∧
    (∀ indicators : IndicatorSnapshot,
        matchesFilters { indicators with rsi := 28.5 } (rsiBelowFilter 30) = true) ∧
    (∀ indicators : IndicatorSnapshot,
        matchesFilters { indicators with rsi := 30 } (rsiBelowFilter 30) = false) := by
  have key : ∀ (indicators : IndicatorSnapshot) (v : ℚ),
      matchesFilters indicators (rsiBelowFilter v) = true ↔ indicators.rsi < v := by
    intro indicators v
    simp [matchesFilters, Filters.isEmpty, rsiBelowFilter, checkRsi, checkMacd,
      checkMa, checkBollinger, checkPrice]
  refine ⟨key, fun indicators => ?_, fun indicators => ?_⟩
  · rw [key]
    norm_num
  · rw [← Bool.not_eq_true, key]
    norm_num

/-! ## C5: the EMA is seeded with the SMA of the first window -/

/-- C5.  For every list of values long enough for the computation, both
`calculateEMA` and `calculateSMA` succeed and the first EMA value equals
the first SMA value (the EMA seed is the simple mean of the first `period`
values). -/
theorem calculateEMA_first_eq_calculateSMA_first (values : List ℚ) (period : ℕ)
    (h : period ≤ values.length) :
    ∃ es ss, calculateEMA values period = Except.ok es ∧
      calculateSMA values period = Except.ok ss ∧
      es.head? = ss.head? ∧ es ≠ [] := by
  refine ⟨emaList values period, smaList values period, ?_, ?_, ?_, ?_⟩
  · unfold calculateEMA
    rw [if_neg (by omega)]
  · unfold calculateSMA
    rw [if_neg (by omega)]
  · unfold emaList smaList
    rw [List.head?_eq_getElem?, List.getElem?_scanl_zero]
    rw [List.head?_eq_getElem?, List.getElem?_map, List.getElem?_range (by omega)]
    simp
  · unfold emaList
    intro hcon
    have := congrArg List.length hcon
    rw [List.length_scanl] at this
    simp at this

/-- Witness for C5 at a concrete input. -/
theorem calculateEMA_first_eq_calculateSMA_first_witness :
    2 ≤ ([1, 2] : List ℚ).length ∧
      ∃ es ss, calculateEMA [1, 2] 2 = Except.ok es ∧
        calculateSMA [1, 2] 2 = Except.ok ss ∧
        es.head? = ss.head? ∧ es ≠ [] :=
  ⟨by decide, calculateEMA_first_eq_calculateSMA_first [1, 2] 2 (by decide)⟩

/-! ## C3: what totalScanned and matchedCount actually count -/

theorem scanStep_snd (filters : Filters) (acc : List ScanResult × ℕ)
    (entry : String × List Kline) :
    (scanStep filters acc entry).2 = acc.2 + 1 := by
  unfold scanStep
  by_cases h : entry.2.length < 100
  · rw [if_pos h]
  · rw [if_neg h]
    dsimp only
    cases hind : getLatestIndicators (parseKlines entry.2).closes
        (parseKlines entry.2).highs (parseKlines entry.2).lows with
    | error e => rfl
    | ok indicators =>
      dsimp only
      by_cases hm : matchesFilters indicators filters
      · rw [if_pos hm]
      · rw [if_neg hm]

theorem scanStep_fst_length (filters : Filters) (acc : List ScanResult × ℕ)
    (entry : String × List Kline) :
    (scanStep filters acc entry).1.length
      = acc.1.length + (if seriesMatches filters entry then 1 else 0) := by
  unfold scanStep seriesMatches
  by_cases h : entry.2.length < 100
  · simp [h]
  · rw [if_neg h, if_neg h]
    dsimp only
    cases hind : getLatestIndicators (parseKlines entry.2).closes
        (parseKlines entry.2).highs (parseKlines entry.2).lows with
    | error e => simp
    | ok indicators =>
      by_cases hm : matchesFilters indicators filters
      · simp [hm]
      · simp [hm]

theorem foldl_scanStep_snd (filters : Filters) (l : List (String × List Kline)) :
    ∀ acc : List ScanResult × ℕ,
      (l.foldl (scanStep filters) acc).2 = acc.2 + l.length := by
  induction l with
  | nil => intro acc; simp
  | cons e t ih =>
    intro acc
    rw [List.foldl_cons, ih, scanStep_snd]
    simp only [List.length_cons]
    omega

theorem foldl_scanStep_fst_length (filters : Filters)
    (l : List (String × List Kline)) :
    ∀ acc : List ScanResult × ℕ,
      (l.foldl (scanStep filters) acc).1.length
        = acc.1.length + (l.filter (seriesMatches filters)).length := by
  induction l with
  | nil => intro acc; simp
  | cons e t ih =>
    intro acc
    rw [List.foldl_cons, ih, scanStep_fst_length, List.filter_cons]
    by_cases hm : seriesMatches filters e
    · simp [hm]
      omega
    · simp [hm]

/-- C3 (amended).  In the report of one scan, `totalScanned` equals the
number of ALL fetched series (every entry of the fetched map is counted,
including entries that are skipped by the 100-candle pre-check and so never
reach indicator computation), and `matchedCount` equals the number of
matching results before truncation to `maxResults`. -/
theorem scanSymbols_counts (klinesMap : List (String × List Kline))
    (filters : Filters) (maxResults : ℕ) :
    (scanSymbols klinesMap filters maxResults).totalScanned = klinesMap.length ∧
    (scanSymbols klinesMap filters maxResults).matchedCount
      = (klinesMap.filter (seriesMatches filters)).length := by
  unfold scanSymbols
  dsimp only
  constructor
  · rw [foldl_scanStep_snd]
    simp
  · rw [List.length_mergeSort, foldl_scanStep_fst_length]
    simp

/-- Counterexample for C3 as stated: a single fetched series with only one
candle never reaches indicator computation (`analyzedCount` is 0), yet
`totalScanned` is 1, so `totalScanned` is not the number of series actually
analyzed. -/
theorem scanSymbols_totalScanned_ne_analyzed :
    (scanSymbols [("AAAUSDT", [[0, 1, 1, 1, 1, 1, 0]])]
        ⟨none, none, none, none, none⟩ 0).totalScanned = 1 ∧
    analyzedCount [("AAAUSDT", [[0, 1, 1, 1, 1, 1, 0]])] = 0 ∧
    (1 : ℕ) ≠ 0 := by
  refine ⟨rfl, rfl, by decide⟩
